import Mathlib

/-!
Verification of the continuous playlist scheduling engine
(`src/engine/stream-engine.mjs`): data model, ordering policy, scheduler
step, store prune and engine-state persistence, as a shallow embedding.

Modelling conventions:
* `addedAt` timestamps are embedded as integers (epoch milliseconds); the
  source parses ISO strings with `new Date(...)`, which is monotone in the
  represented instant.
* JavaScript `Array.prototype.sort` is required by the language standard to
  be a stable sort; a stable sort by a comparator that compares integer keys
  is exactly `List.insertionSort` with the corresponding `≤`-shaped
  relation, which is what the embedding uses.
* File-system reads that can fail (`loadPlaylist`) are embedded as
  `Option Playlist`-valued inputs; `none` models a missing or unparseable
  store file.
-/

/-- One playable unit of the Playlist Store, as read from `playlist.json`.
The `_played` flag is absent in the stored JSON (hence `false` on any
freshly loaded clip) and is set in memory by the scheduler step. -/
structure Clip where
  id : String
  path : String
  priority : String
  position : Option Int
  addedAt : Int
  title : String
  _played : Bool
deriving DecidableEq, Repr

/-- The Playlist Store structure: a record holding a sequence of clips. -/
structure Playlist where
  clips : List Clip
deriving DecidableEq, Repr

/-- `getOrderedClips` (stream-engine.mjs lines 58-66): split the clips into
the four priority buckets, sort pinned by ascending `position` (missing
position read as 0, as `a.position || 0` does), breaking by descending
`addedAt`, normal by ascending `addedAt`, keep filler in store order, and
concatenate.  A `none` playlist or an empty `clips` array yields `[]`. -/
def getOrderedClips (playlist : Option Playlist) : List Clip :=
  match playlist with
  | none => []
  | some p =>
    if p.clips.isEmpty then []
    else
      let clips := p.clips
      let pinned := (clips.filter (fun c => c.priority == "pinned")).insertionSort
        (fun a b => a.position.getD 0 ≤ b.position.getD 0)
      let breaking := (clips.filter (fun c => c.priority == "breaking")).insertionSort
        (fun a b => b.addedAt ≤ a.addedAt)
      let normal := (clips.filter (fun c => c.priority == "normal")).insertionSort
        (fun a b => a.addedAt ≤ b.addedAt)
      let filler := clips.filter (fun c => c.priority == "filler")
      pinned ++ breaking ++ normal ++ filler

/-- Clip selection of one `PLAY_STEP` (stream-engine.mjs lines 136-147):
reload the store (`freshPlaylist`), falling back to the pass's in-memory
snapshot `playlist` when the reload fails (`freshPlaylist || playlist`);
recompute the order; collect the pending breaking clips; if any exist and
`i > 0`, deliver the first pending breaking clip, otherwise the base-plan
clip `ordered[i]`. -/
def stepSelect (ordered : List Clip) (freshPlaylist : Option Playlist)
    (playlist : Playlist) (i : Nat) : Option Clip :=
  let freshOrdered := getOrderedClips (some (freshPlaylist.getD playlist))
  let breaking := freshOrdered.filter (fun c => c.priority == "breaking" && !c._played)
  if 0 < breaking.length ∧ 0 < i then breaking.head? else ordered[i]?

/-- The pass-completion prune (stream-engine.mjs line 171): drop every clip
whose priority is `"breaking"`, keeping all other clips untouched. -/
def prunePass (pl : Playlist) : Playlist :=
  { pl with clips := pl.clips.filter (fun c => c.priority != "breaking") }

/-- The pass-completion store rewrite (stream-engine.mjs lines 169-173),
generic over the on-disk representation `σ`: reload the store; if the load
fails (`pl` is null) perform no write and leave the file as it is,
otherwise serialize the pruned playlist over it. -/
def pruneStore {σ : Type} (parse : σ → Option Playlist) (serialize : Playlist → σ)
    (file : σ) : σ :=
  match parse file with
  | none => file
  | some pl => serialize (prunePass pl)

/-- The engine's durable cursor (stream-engine.mjs lines 24-32). -/
structure EngineState where
  running : Bool
  currentClipId : Option String
  currentIndex : Nat
  loopCount : Nat
  startedAt : String
  clipsPlayed : Nat
  errors : Nat
deriving DecidableEq, Repr

/-- The in-memory defaults the engine starts from (lines 24-32); `now` is
the process start timestamp. -/
def initialState (now : String) : EngineState :=
  { running := true, currentClipId := none, currentIndex := 0, loopCount := 0,
    startedAt := now, clipsPlayed := 0, errors := 0 }

/-- A parsed `engine-state.json`: each field may or may not be present in
the persisted JSON object. -/
structure PersistedState where
  running : Option Bool
  currentClipId : Option (Option String)
  currentIndex : Option Nat
  loopCount : Option Nat
  startedAt : Option String
  clipsPlayed : Option Nat
  errors : Option Nat
deriving DecidableEq, Repr

/-- `loadState` (stream-engine.mjs lines 34-38): when a state file exists
and parses, spread the persisted fields over the current in-memory state
(`{ ...engineState, ...parsed }`); a missing or unparseable file leaves the
in-memory state unchanged. -/
def loadState (current : EngineState) (file : Option PersistedState) : EngineState :=
  match file with
  | none => current
  | some p =>
    { running := p.running.getD current.running,
      currentClipId := p.currentClipId.getD current.currentClipId,
      currentIndex := p.currentIndex.getD current.currentIndex,
      loopCount := p.loopCount.getD current.loopCount,
      startedAt := p.startedAt.getD current.startedAt,
      clipsPlayed := p.clipsPlayed.getD current.clipsPlayed,
      errors := p.errors.getD current.errors }

/-- Outcome of the spawned ffmpeg process: a normal exit with a code, or a
spawn error (the `error` event). -/
inductive FfmpegResult where
  | exited (code : Int)
  | failed
deriving DecidableEq, Repr

/-- `playClip` (stream-engine.mjs lines 68-96): a missing file resolves 1
without spawning; otherwise the promise resolves with the process exit
code, or 1 on a spawn error.  The promise only ever resolves (never
rejects), so no exception crosses the step boundary. -/
def playClip (pathExists : Bool) (ff : FfmpegResult) : Int :=
  if !pathExists then 1
  else
    match ff with
    | .exited code => code
    | .failed => 1

/-- Step accounting (stream-engine.mjs lines 159-161): a non-zero delivery
outcome increments `errors`; `clipsPlayed` is incremented unconditionally. -/
def recordOutcome (st : EngineState) (code : Int) : EngineState :=
  let st1 := if code ≠ 0 then { st with errors := st.errors + 1 } else st
  { st1 with clipsPlayed := st1.clipsPlayed + 1 }

/-- What one turn of the outer `while` loop decides to do
(stream-engine.mjs lines 122-134): wait 10 s when the load fails or the
ordered sequence is empty, otherwise run a pass over the ordered clips. -/
inductive LoopAction where
  | wait (ms : Nat)
  | runPass (ordered : List Clip)
deriving DecidableEq, Repr

/-- One turn of the outer scheduler loop (stream-engine.mjs lines 122-134),
as a function of the playlist-load outcome. -/
def loopIteration (load : Option Playlist) : LoopAction :=
  match load with
  | none => .wait 10000
  | some pl =>
    let ordered := getOrderedClips (some pl)
    if ordered.length = 0 then .wait 10000 else .runPass ordered

/-- Claim C1 counterexample: a playlist holding a single clip with the
unrecognized priority `"urgent"` yields an empty baseline sequence — the
clip lands in no bucket and is omitted, contradicting the claim that it is
placed in the filler bucket and never omitted. -/
theorem c1_counterexample :
    getOrderedClips (some (Playlist.mk [⟨"u", "u.mp4", "urgent", none, 0, "U", false⟩])) = []
    ∧ ⟨"u", "u.mp4", "urgent", none, 0, "U", false⟩
      ∉ getOrderedClips (some (Playlist.mk [⟨"u", "u.mp4", "urgent", none, 0, "U", false⟩])) := by
  decide

/-- Claim C1 (amended): a clip whose priority is not one of the four
recognized values is never placed in any bucket — every clip of the
baseline sequence has one of the four recognized priorities, so an
unrecognized-priority clip is omitted from the sequence entirely. -/
theorem c1_unrecognized_omitted (p : Playlist) (c : Clip)
    (h : c ∈ getOrderedClips (some p)) :
    c.priority = "pinned" ∨ c.priority = "breaking" ∨ c.priority = "normal"
      ∨ c.priority = "filler" := by
  unfold getOrderedClips at h
  by_cases he : p.clips.isEmpty
  · simp [he] at h
  · simp [he, List.mem_append, List.mem_insertionSort, List.mem_filter] at h
    tauto

/-- Claim C1 witness: the amended theorem applied to a concrete pinned
clip. -/
theorem c1_witness :
    (⟨"p", "p.mp4", "pinned", some 0, 0, "P", false⟩ : Clip).priority = "pinned"
    ∨ (⟨"p", "p.mp4", "pinned", some 0, 0, "P", false⟩ : Clip).priority = "breaking"
    ∨ (⟨"p", "p.mp4", "pinned", some 0, 0, "P", false⟩ : Clip).priority = "normal"
    ∨ (⟨"p", "p.mp4", "pinned", some 0, 0, "P", false⟩ : Clip).priority = "filler" :=
  c1_unrecognized_omitted (Playlist.mk [⟨"p", "p.mp4", "pinned", some 0, 0, "P", false⟩])
    ⟨"p", "p.mp4", "pinned", some 0, 0, "P", false⟩ (by decide)

/-- Claim C5: when the pass-completion reload parses, the store is
rewritten to exactly the current contents minus the breaking-priority
clips: the pruned store holds zero breaking clips, every surviving clip is
one of the store's clips with all fields unchanged, every non-breaking
clip survives, and the result is precisely the non-breaking filter. -/
theorem c5_prune_removes_breaking {σ : Type} (parse : σ → Option Playlist)
    (serialize : Playlist → σ) (file : σ) (pl : Playlist)
    (h : parse file = some pl) :
    pruneStore parse serialize file = serialize (prunePass pl)
    ∧ (∀ c ∈ (prunePass pl).clips, c.priority ≠ "breaking")
    ∧ (∀ c ∈ (prunePass pl).clips, c ∈ pl.clips)
    ∧ (∀ c ∈ pl.clips, c.priority ≠ "breaking" → c ∈ (prunePass pl).clips)
    ∧ (prunePass pl).clips = pl.clips.filter (fun c => c.priority != "breaking") := by
  refine ⟨by simp [pruneStore, h], ?_, ?_, ?_, rfl⟩
  · intro c hc
    simp [prunePass, List.mem_filter] at hc
    exact hc.2
  · intro c hc
    exact (List.mem_filter.1 hc).1
  · intro c hc hne
    exact List.mem_filter.2 ⟨hc, by simpa using hne⟩

/-- Claim C5 witness: the prune theorem applied to a concrete two-clip
store (one breaking, one normal) read through the identity parser. -/
theorem c5_witness :
    pruneStore (fun s => s) (fun pl => some pl)
        (some (Playlist.mk [⟨"n", "n.mp4", "normal", none, 0, "N", false⟩,
          ⟨"b", "b.mp4", "breaking", none, 1, "B", false⟩]))
      = some (prunePass (Playlist.mk [⟨"n", "n.mp4", "normal", none, 0, "N", false⟩,
          ⟨"b", "b.mp4", "breaking", none, 1, "B", false⟩]))
    ∧ ∀ c ∈ (prunePass (Playlist.mk [⟨"n", "n.mp4", "normal", none, 0, "N", false⟩,
          ⟨"b", "b.mp4", "breaking", none, 1, "B", false⟩])).clips,
        c.priority ≠ "breaking" := by
  have h := c5_prune_removes_breaking (fun s => s) (fun pl => some pl)
    (some (Playlist.mk [⟨"n", "n.mp4", "normal", none, 0, "N", false⟩,
      ⟨"b", "b.mp4", "breaking", none, 1, "B", false⟩]))
    (Playlist.mk [⟨"n", "n.mp4", "normal", none, 0, "N", false⟩,
      ⟨"b", "b.mp4", "breaking", none, 1, "B", false⟩]) rfl
  exact ⟨h.1, h.2.1⟩

/-- Claim C6: a play step whose resolved clip path does not exist on disk
resolves outcome 1 (no exception escapes `playClip`, whose promise only
resolves), so the step increments both `errors` and `clipsPlayed` by one,
leaves the rest of the engine state unchanged, and the loop proceeds — the
accounting function is total. -/
theorem c6_missing_path_counts (st : EngineState) (ff : FfmpegResult) :
    playClip false ff = 1
    ∧ (recordOutcome st (playClip false ff)).errors = st.errors + 1
    ∧ (recordOutcome st (playClip false ff)).clipsPlayed = st.clipsPlayed + 1
    ∧ (recordOutcome st (playClip false ff)).running = st.running
    ∧ (recordOutcome st (playClip false ff)).loopCount = st.loopCount := by
  refine ⟨rfl, ?_⟩
  simp [playClip, recordOutcome]

/-- Claim C7: loading a pre-existing, parseable Engine State file merges
the persisted values over the defaults — whenever the persisted record
carries `loopCount`, `clipsPlayed`, `errors` and `startedAt`, the loaded
state takes each of those values rather than the defaults. -/
theorem c7_restart_resumes (cur : EngineState) (p : PersistedState)
    (lc cp er : Nat) (sa : String)
    (h1 : p.loopCount = some lc) (h2 : p.clipsPlayed = some cp)
    (h3 : p.errors = some er) (h4 : p.startedAt = some sa) :
    (loadState cur (some p)).loopCount = lc
    ∧ (loadState cur (some p)).clipsPlayed = cp
    ∧ (loadState cur (some p)).errors = er
    ∧ (loadState cur (some p)).startedAt = sa := by
  simp [loadState, h1, h2, h3, h4]

/-- Claim C7 witness: a restart with a fully persisted record resumes the
persisted counters over fresh defaults. -/
theorem c7_witness :
    (loadState (initialState "2026-02-21T00:00:00Z")
        (some ⟨some true, some none, some 2, some 7, some "2026-01-01T00:00:00Z",
          some 40, some 3⟩)).loopCount = 7
    ∧ (loadState (initialState "2026-02-21T00:00:00Z")
        (some ⟨some true, some none, some 2, some 7, some "2026-01-01T00:00:00Z",
          some 40, some 3⟩)).clipsPlayed = 40
    ∧ (loadState (initialState "2026-02-21T00:00:00Z")
        (some ⟨some true, some none, some 2, some 7, some "2026-01-01T00:00:00Z",
          some 40, some 3⟩)).errors = 3
    ∧ (loadState (initialState "2026-02-21T00:00:00Z")
        (some ⟨some true, some none, some 2, some 7, some "2026-01-01T00:00:00Z",
          some 40, some 3⟩)).startedAt = "2026-01-01T00:00:00Z" :=
  c7_restart_resumes (initialState "2026-02-21T00:00:00Z")
    ⟨some true, some none, some 2, some 7, some "2026-01-01T00:00:00Z", some 40, some 3⟩
    7 40 3 "2026-01-01T00:00:00Z" rfl rfl rfl rfl

/-- Claim C8 counterexample: a store whose playlist holds one clip (with
the unrecognized priority `"urgent"`) does not resume pass scheduling — the
loop still waits 10 s, although the playlist has at least one clip. -/
theorem c8_counterexample :
    (Playlist.mk [⟨"u", "u.mp4", "urgent", none, 0, "U", false⟩]).clips.length = 1
    ∧ loopIteration (some (Playlist.mk [⟨"u", "u.mp4", "urgent", none, 0, "U", false⟩]))
      = LoopAction.wait 10000 := by
  decide

/-- Claim C8 (amended): whenever the store is missing/unparseable or the
computed order is empty (zero clips, or clips only outside the four
recognized buckets), the loop does not fail: it waits the fixed 10-second
interval and retries; it resumes pass scheduling as soon as a load yields a
playlist whose ordered sequence holds at least one clip. -/
theorem c8_poll_and_resume (pl : Playlist) :
    loopIteration none = LoopAction.wait 10000
    ∧ (getOrderedClips (some pl) = [] → loopIteration (some pl) = LoopAction.wait 10000)
    ∧ (getOrderedClips (some pl) ≠ []
        → loopIteration (some pl) = LoopAction.runPass (getOrderedClips (some pl))) := by
  refine ⟨rfl, ?_, ?_⟩
  · intro h
    simp [loopIteration, h]
  · intro h
    simp [loopIteration, List.length_eq_zero.not.2 h, h]

/-- Claim C8 witness: the amended theorem at a concrete one-normal-clip
playlist — the loop starts a pass over its ordered sequence. -/
theorem c8_witness :
    loopIteration (some (Playlist.mk [⟨"n", "n.mp4", "normal", none, 0, "N", false⟩]))
      = LoopAction.runPass
          (getOrderedClips (some (Playlist.mk [⟨"n", "n.mp4", "normal", none, 0, "N", false⟩]))) :=
  (c8_poll_and_resume (Playlist.mk [⟨"n", "n.mp4", "normal", none, 0, "N", false⟩])).2.2
    (by decide)

/-- Claim C9: when the mid-pass reload fails (`loadPlaylist` returns null),
the step selection is total — it behaves exactly as if the reload had
returned the pass's original snapshot, and when the snapshot holds no
pending breaking clip the step delivers the committed base-plan clip
`ordered[i]`. -/
theorem c9_reload_failure_fallback (ordered : List Clip) (pl : Playlist) (i : Nat)
    (hq : (getOrderedClips (some pl)).filter
        (fun c => c.priority == "breaking" && !c._played) = []) :
    stepSelect ordered none pl i = stepSelect ordered (some pl) pl i
    ∧ stepSelect ordered none pl i = ordered[i]? := by
  refine ⟨rfl, ?_⟩
  simp [stepSelect, hq]

/-- Claim C9 witness: with a snapshot of one normal clip and a failing
reload, step 0 delivers the base-plan clip. -/
theorem c9_witness :
    stepSelect [⟨"n", "n.mp4", "normal", none, 0, "N", false⟩] none
        (Playlist.mk [⟨"n", "n.mp4", "normal", none, 0, "N", false⟩]) 0
      = some ⟨"n", "n.mp4", "normal", none, 0, "N", false⟩ :=
  (c9_reload_failure_fallback [⟨"n", "n.mp4", "normal", none, 0, "N", false⟩]
    (Playlist.mk [⟨"n", "n.mp4", "normal", none, 0, "N", false⟩]) 0 (by decide)).2

/-- Claim C10: when the Playlist Store is missing or unparseable at the
moment of the pass-completion prune, no write happens — the store file is
left exactly as it was. -/
theorem c10_no_write_on_bad_store {σ : Type} (parse : σ → Option Playlist)
    (serialize : Playlist → σ) (file : σ) (h : parse file = none) :
    pruneStore parse serialize file = file := by
  simp [pruneStore, h]

/-- Claim C10 witness: a store whose raw content does not parse is left
untouched by the prune. -/
theorem c10_witness :
    pruneStore (fun _ : Nat => (none : Option Playlist)) (fun _ => 0) 7 = 7 :=
  c10_no_write_on_bad_store (fun _ => none) (fun _ => 0) 7 rfl

/-- Every two elements of one key class are related, so a key class of a
list is pairwise related. -/
theorem pairwise_filter_class {α : Type} (r : α → α → Prop) (k : α → Int)
    (hkey : ∀ a b, k a = k b → r a b) (l : List α) (v : Int) :
    (l.filter (fun a => k a == v)).Pairwise r := by
  refine List.pairwise_of_forall_mem_list ?_
  intro a ha b hb
  have ha' := (List.mem_filter.1 ha).2
  have hb' := (List.mem_filter.1 hb).2
  simp only [beq_iff_eq] at ha' hb'
  exact hkey a b (ha'.trans hb'.symm)

/-- Stability of the insertion sort: a whole key class of the input appears
in the output unchanged, in input order. -/
theorem filter_class_insertionSort {α : Type} (r : α → α → Prop) [DecidableRel r]
    (k : α → Int) (hkey : ∀ a b, k a = k b → r a b) (l : List α) (v : Int) :
    (l.insertionSort r).filter (fun a => k a == v) = l.filter (fun a => k a == v) := by
  have hsub0 : List.Sublist (l.filter (fun a => k a == v)) (l.insertionSort r) :=
    List.sublist_insertionSort (pairwise_filter_class r k hkey l v) (List.filter_sublist l)
  have hsub : List.Sublist (l.filter (fun a => k a == v))
      ((l.insertionSort r).filter (fun a => k a == v)) := by
    have h2 := hsub0.filter (fun a => k a == v)
    simpa [List.filter_filter] using h2
  have hperm : List.Perm ((l.insertionSort r).filter (fun a => k a == v))
      (l.filter (fun a => k a == v)) := (List.perm_insertionSort r l).filter _
  exact (hsub.eq_of_length hperm.length_eq.symm).symm

/-- Two lists sorted by the same total key preorder and with identical key
classes are equal. -/
theorem eq_of_sorted_of_classes {α : Type} (r : α → α → Prop) (k : α → Int)
    (hanti : ∀ a b, r a b → r b a → k a = k b) :
    ∀ l1 l2 : List α, List.Sorted r l1 → List.Sorted r l2 →
      (∀ v, l1.filter (fun a => k a == v) = l2.filter (fun a => k a == v)) → l1 = l2 := by
  intro l1
  induction l1 with
  | nil =>
    intro l2 _ _ h
    cases l2 with
    | nil => rfl
    | cons y t2 =>
      have h0 := h (k y)
      simp at h0
  | cons x t1 ih =>
    intro l2 hs1 hs2 h
    cases l2 with
    | nil =>
      have h0 := h (k x)
      simp at h0
    | cons y t2 =>
      have hx2 : x ∈ y :: t2 := by
        have hmem : x ∈ (x :: t1).filter (fun a => k a == k x) := by simp
        rw [h (k x)] at hmem
        exact (List.mem_filter.1 hmem).1
      have hy1 : y ∈ x :: t1 := by
        have hmem : y ∈ (y :: t2).filter (fun a => k a == k y) := by simp
        rw [← h (k y)] at hmem
        exact (List.mem_filter.1 hmem).1
      have hxy : k x = k y := by
        rcases List.mem_cons.1 hx2 with hxe | hxt
        · rw [hxe]
        · rcases List.mem_cons.1 hy1 with hye | hyt
          · rw [hye]
          · exact hanti x y (List.rel_of_sorted_cons hs1 y hyt)
              (List.rel_of_sorted_cons hs2 x hxt)
      have hk := h (k x)
      rw [List.filter_cons, List.filter_cons] at hk
      simp only [beq_self_eq_true, if_true, ← hxy, beq_iff_eq] at hk
      injection hk with hhead htail
      have h' : ∀ v, t1.filter (fun a => k a == v) = t2.filter (fun a => k a == v) := by
        intro v
        by_cases hv : v = k x
        · rw [hv]
          exact htail
        · have hv' := h v
          rw [List.filter_cons, List.filter_cons] at hv'
          have hkx : (k x == v) = false := by
            simp [Ne.symm hv]
          have hky : (k y == v) = false := by
            simp [← hxy, Ne.symm hv]
          rw [hkx, hky] at hv'
          simpa using hv'
      rw [hhead, ih t2 (List.Sorted.of_cons hs1) (List.Sorted.of_cons hs2) h']

/-- Stable sorts of two lists that agree on every key class agree. -/
theorem insertionSort_eq_of_classes {α : Type} (r : α → α → Prop) [DecidableRel r]
    (k : α → Int)
    (htot : ∀ a b : α, r a b ∨ r b a) (htrans : ∀ a b c : α, r a b → r b c → r a c)
    (hanti : ∀ a b, r a b → r b a → k a = k b) (hkey : ∀ a b, k a = k b → r a b)
    (l1 l2 : List α)
    (h : ∀ v, l1.filter (fun a => k a == v) = l2.filter (fun a => k a == v)) :
    l1.insertionSort r = l2.insertionSort r := by
  haveI : IsTotal α r := ⟨htot⟩
  haveI : IsTrans α r := ⟨htrans⟩
  refine eq_of_sorted_of_classes r k hanti _ _
    (List.sorted_insertionSort r l1) (List.sorted_insertionSort r l2) ?_
  intro v
  rw [filter_class_insertionSort r k hkey l1 v, filter_class_insertionSort r k hkey l2 v]
  exact h v

/-- The ordering policy, guard folded away: the baseline sequence is always
the four-bucket concatenation (when the clips array is empty every bucket
is empty as well). -/
theorem getOrderedClips_eq_tiers (p : Playlist) :
    getOrderedClips (some p)
      = (p.clips.filter (fun c => c.priority == "pinned")).insertionSort
          (fun a b => a.position.getD 0 ≤ b.position.getD 0)
        ++ (p.clips.filter (fun c => c.priority == "breaking")).insertionSort
          (fun a b => b.addedAt ≤ a.addedAt)
        ++ (p.clips.filter (fun c => c.priority == "normal")).insertionSort
          (fun a b => a.addedAt ≤ b.addedAt)
        ++ p.clips.filter (fun c => c.priority == "filler") := by
  by_cases he : p.clips.isEmpty
  · rw [List.isEmpty_iff] at he
    simp [getOrderedClips, he]
  · simp [getOrderedClips, he]

/-- The pending-breaking list a play step works from is exactly the
unplayed part of the descending-`addedAt` breaking bucket: the other three
buckets contribute nothing to it. -/
theorem pending_breaking_filter (pl : Playlist) :
    (getOrderedClips (some pl)).filter (fun c => c.priority == "breaking" && !c._played)
      = ((pl.clips.filter (fun c => c.priority == "breaking")).insertionSort
          (fun a b => b.addedAt ≤ a.addedAt)).filter (fun c => !c._played) := by
  rw [getOrderedClips_eq_tiers]
  rw [List.filter_append, List.filter_append, List.filter_append]
  have hpin : ((pl.clips.filter (fun c => c.priority == "pinned")).insertionSort
      (fun a b => a.position.getD 0 ≤ b.position.getD 0)).filter
        (fun c => c.priority == "breaking" && !c._played) = [] := by
    refine List.filter_eq_nil_iff.2 ?_
    intro c hc
    have := (List.mem_filter.1 ((List.mem_insertionSort _).1 hc)).2
    simp only [beq_iff_eq] at this
    simp [this]
  have hnrm : ((pl.clips.filter (fun c => c.priority == "normal")).insertionSort
      (fun a b => a.addedAt ≤ b.addedAt)).filter
        (fun c => c.priority == "breaking" && !c._played) = [] := by
    refine List.filter_eq_nil_iff.2 ?_
    intro c hc
    have := (List.mem_filter.1 ((List.mem_insertionSort _).1 hc)).2
    simp only [beq_iff_eq] at this
    simp [this]
  have hfil : (pl.clips.filter (fun c => c.priority == "filler")).filter
      (fun c => c.priority == "breaking" && !c._played) = [] := by
    refine List.filter_eq_nil_iff.2 ?_
    intro c hc
    have := (List.mem_filter.1 hc).2
    simp only [beq_iff_eq] at this
    simp [this]
  have hbrk : ((pl.clips.filter (fun c => c.priority == "breaking")).insertionSort
      (fun a b => b.addedAt ≤ a.addedAt)).filter
        (fun c => c.priority == "breaking" && !c._played)
      = ((pl.clips.filter (fun c => c.priority == "breaking")).insertionSort
          (fun a b => b.addedAt ≤ a.addedAt)).filter (fun c => !c._played) := by
    refine List.filter_congr ?_
    intro c hc
    have := (List.mem_filter.1 ((List.mem_insertionSort _).1 hc)).2
    simp [this]
  rw [hpin, hnrm, hfil, hbrk]
  simp

/-- Claim C2: the ordering policy returns exactly pinned (ascending
position) ++ breaking (descending addedAt) ++ normal (ascending addedAt)
++ filler; the four-clip scenario with T0 < T1 yields b, a, d, c; and the
result is unchanged under any rearrangement of the input that keeps every
tier's tie-broken equals (same sort key inside the same tier, and the
filler bucket as a whole) in their relative order. -/
theorem c2_baseline_order :
    (∀ p : Playlist, getOrderedClips (some p)
      = (p.clips.filter (fun c => c.priority == "pinned")).insertionSort
          (fun a b => a.position.getD 0 ≤ b.position.getD 0)
        ++ (p.clips.filter (fun c => c.priority == "breaking")).insertionSort
          (fun a b => b.addedAt ≤ a.addedAt)
        ++ (p.clips.filter (fun c => c.priority == "normal")).insertionSort
          (fun a b => a.addedAt ≤ b.addedAt)
        ++ p.clips.filter (fun c => c.priority == "filler"))
    ∧ getOrderedClips (some (Playlist.mk
        [⟨"a", "a.mp4", "pinned", some 1, 0, "A", false⟩,
         ⟨"b", "b.mp4", "pinned", some 0, 0, "B", false⟩,
         ⟨"c", "c.mp4", "normal", none, 1, "C", false⟩,
         ⟨"d", "d.mp4", "normal", none, 0, "D", false⟩]))
      = [⟨"b", "b.mp4", "pinned", some 0, 0, "B", false⟩,
         ⟨"a", "a.mp4", "pinned", some 1, 0, "A", false⟩,
         ⟨"d", "d.mp4", "normal", none, 0, "D", false⟩,
         ⟨"c", "c.mp4", "normal", none, 1, "C", false⟩]
    ∧ (∀ p1 p2 : Playlist,
        (∀ v : Int, (p1.clips.filter (fun c => c.priority == "pinned")).filter
            (fun c => c.position.getD 0 == v)
          = (p2.clips.filter (fun c => c.priority == "pinned")).filter
            (fun c => c.position.getD 0 == v)) →
        (∀ v : Int, (p1.clips.filter (fun c => c.priority == "breaking")).filter
            (fun c => c.addedAt == v)
          = (p2.clips.filter (fun c => c.priority == "breaking")).filter
            (fun c => c.addedAt == v)) →
        (∀ v : Int, (p1.clips.filter (fun c => c.priority == "normal")).filter
            (fun c => c.addedAt == v)
          = (p2.clips.filter (fun c => c.priority == "normal")).filter
            (fun c => c.addedAt == v)) →
        p1.clips.filter (fun c => c.priority == "filler")
          = p2.clips.filter (fun c => c.priority == "filler") →
        getOrderedClips (some p1) = getOrderedClips (some p2)) := by
  refine ⟨getOrderedClips_eq_tiers, by decide, ?_⟩
  intro p1 p2 hpin hbrk hnrm hfil
  rw [getOrderedClips_eq_tiers, getOrderedClips_eq_tiers]
  have e1 := insertionSort_eq_of_classes
    (fun a b : Clip => a.position.getD 0 ≤ b.position.getD 0)
    (fun c => c.position.getD 0)
    (fun a b => le_total _ _) (fun a b c h1 h2 => le_trans h1 h2)
    (fun a b h1 h2 => le_antisymm h1 h2) (fun a b h => le_of_eq h)
    (p1.clips.filter (fun c => c.priority == "pinned"))
    (p2.clips.filter (fun c => c.priority == "pinned")) hpin
  have e2 := insertionSort_eq_of_classes
    (fun a b : Clip => b.addedAt ≤ a.addedAt)
    (fun c => c.addedAt)
    (fun a b => le_total _ _) (fun a b c h1 h2 => le_trans h2 h1)
    (fun a b h1 h2 => le_antisymm h2 h1) (fun a b h => le_of_eq h.symm)
    (p1.clips.filter (fun c => c.priority == "breaking"))
    (p2.clips.filter (fun c => c.priority == "breaking")) hbrk
  have e3 := insertionSort_eq_of_classes
    (fun a b : Clip => a.addedAt ≤ b.addedAt)
    (fun c => c.addedAt)
    (fun a b => le_total _ _) (fun a b c h1 h2 => le_trans h1 h2)
    (fun a b h1 h2 => le_antisymm h1 h2) (fun a b h => le_of_eq h)
    (p1.clips.filter (fun c => c.priority == "normal"))
    (p2.clips.filter (fun c => c.priority == "normal")) hnrm
  rw [e1, e2, e3, hfil]

/-- Claim C2 witness: moving a normal clip past a pinned clip in the store
leaves the baseline order unchanged. -/
theorem c2_witness :
    getOrderedClips (some (Playlist.mk
        [⟨"p", "p.mp4", "pinned", some 0, 0, "P", false⟩,
         ⟨"n", "n.mp4", "normal", none, 5, "N", false⟩]))
      = getOrderedClips (some (Playlist.mk
        [⟨"n", "n.mp4", "normal", none, 5, "N", false⟩,
         ⟨"p", "p.mp4", "pinned", some 0, 0, "P", false⟩])) :=
  c2_baseline_order.2.2
    (Playlist.mk [⟨"p", "p.mp4", "pinned", some 0, 0, "P", false⟩,
      ⟨"n", "n.mp4", "normal", none, 5, "N", false⟩])
    (Playlist.mk [⟨"n", "n.mp4", "normal", none, 5, "N", false⟩,
      ⟨"p", "p.mp4", "pinned", some 0, 0, "P", false⟩])
    (fun _ => rfl) (fun _ => rfl) (fun _ => rfl) rfl

/-- Every clip of the baseline sequence is a clip of the playlist. -/
theorem mem_clips_of_mem_getOrderedClips {p : Playlist} {c : Clip}
    (h : c ∈ getOrderedClips (some p)) : c ∈ p.clips := by
  rw [getOrderedClips_eq_tiers] at h
  simp only [List.mem_append, List.mem_insertionSort, List.mem_filter] at h
  tauto

/-- Claim C3: at a play step with index `i > 0` whose fresh reload holds a
pending breaking clip `w` strictly later (by `addedAt`) than every other
pending breaking clip, the step delivers `w` instead of the base-plan clip;
and at index 0 the base-plan clip `ordered[0]` is delivered even if
breaking clips are pending. -/
theorem c3_breaking_preempts (ordered : List Clip) (plF pl : Playlist) (i : Nat)
    (w : Clip) (hi : 0 < i)
    (hw : w ∈ plF.clips) (hwp : w.priority = "breaking") (hwu : w._played = false)
    (hmax : ∀ c ∈ plF.clips, c.priority = "breaking" → c._played = false → c ≠ w →
      c.addedAt < w.addedAt) :
    stepSelect ordered (some plF) pl i = some w
    ∧ stepSelect ordered (some plF) pl 0 = ordered[0]? := by
  constructor
  · show (if 0 < ((getOrderedClips (some plF)).filter
        (fun c => c.priority == "breaking" && !c._played)).length ∧ 0 < i
      then ((getOrderedClips (some plF)).filter
        (fun c => c.priority == "breaking" && !c._played)).head?
      else ordered[i]?) = some w
    rw [pending_breaking_filter plF]
    haveI : IsTotal Clip (fun a b : Clip => b.addedAt ≤ a.addedAt) :=
      ⟨fun a b => le_total b.addedAt a.addedAt⟩
    haveI : IsTrans Clip (fun a b : Clip => b.addedAt ≤ a.addedAt) :=
      ⟨fun a b c h1 h2 => le_trans h2 h1⟩
    have hsort : List.Sorted (fun a b : Clip => b.addedAt ≤ a.addedAt)
        (((plF.clips.filter (fun c => c.priority == "breaking")).insertionSort
          (fun a b => b.addedAt ≤ a.addedAt)).filter (fun c => !c._played)) :=
      (List.sorted_insertionSort _ _).filter _
    have hwF : w ∈ ((plF.clips.filter (fun c => c.priority == "breaking")).insertionSort
        (fun a b => b.addedAt ≤ a.addedAt)).filter (fun c => !c._played) := by
      refine List.mem_filter.2 ⟨(List.mem_insertionSort _).2 ?_, by simp [hwu]⟩
      exact List.mem_filter.2 ⟨hw, by simp [hwp]⟩
    cases hF : ((plF.clips.filter (fun c => c.priority == "breaking")).insertionSort
        (fun a b => b.addedAt ≤ a.addedAt)).filter (fun c => !c._played) with
    | nil => rw [hF] at hwF; cases hwF
    | cons h t =>
      have hh : h ∈ ((plF.clips.filter (fun c => c.priority == "breaking")).insertionSort
          (fun a b => b.addedAt ≤ a.addedAt)).filter (fun c => !c._played) := by
        rw [hF]; exact List.mem_cons_self h t
      have hhs := List.mem_filter.1 hh
      have hhb := List.mem_filter.1 ((List.mem_insertionSort _).1 hhs.1)
      have hhp : h.priority = "breaking" := by simpa using hhb.2
      have hhu : h._played = false := by simpa using hhs.2
      rcases eq_or_ne h w with he | hne
      · simp [hi, he]
      · exfalso
        have hwt : w ∈ t := by
          rw [hF] at hwF
          rcases List.mem_cons.1 hwF with hwe | hwt
          · exact absurd hwe.symm hne
          · exact hwt
        have hle : w.addedAt ≤ h.addedAt := by
          rw [hF] at hsort
          exact List.rel_of_sorted_cons hsort w hwt
        have hlt : h.addedAt < w.addedAt := hmax h hhb.1 hhp hhu hne
        exact absurd (lt_of_le_of_lt hle hlt) (lt_irrefl _)
  · simp [stepSelect]

/-- Claim C3 witness: the base pass is `[x, y, z]`; a breaking clip `w`
with a later `addedAt` sits in the store when step 1 reloads it, so step 1
delivers `w` rather than `y`, while step 0 would still deliver `x`. -/
theorem c3_witness :
    stepSelect
        [⟨"x", "x.mp4", "normal", none, 0, "X", false⟩,
         ⟨"y", "y.mp4", "normal", none, 1, "Y", false⟩,
         ⟨"z", "z.mp4", "normal", none, 2, "Z", false⟩]
        (some (Playlist.mk
          [⟨"x", "x.mp4", "normal", none, 0, "X", false⟩,
           ⟨"y", "y.mp4", "normal", none, 1, "Y", false⟩,
           ⟨"z", "z.mp4", "normal", none, 2, "Z", false⟩,
           ⟨"w", "w.mp4", "breaking", none, 9, "W", false⟩]))
        (Playlist.mk
          [⟨"x", "x.mp4", "normal", none, 0, "X", false⟩,
           ⟨"y", "y.mp4", "normal", none, 1, "Y", false⟩,
           ⟨"z", "z.mp4", "normal", none, 2, "Z", false⟩]) 1
      = some ⟨"w", "w.mp4", "breaking", none, 9, "W", false⟩
    ∧ stepSelect
        [⟨"x", "x.mp4", "normal", none, 0, "X", false⟩,
         ⟨"y", "y.mp4", "normal", none, 1, "Y", false⟩,
         ⟨"z", "z.mp4", "normal", none, 2, "Z", false⟩]
        (some (Playlist.mk
          [⟨"x", "x.mp4", "normal", none, 0, "X", false⟩,
           ⟨"y", "y.mp4", "normal", none, 1, "Y", false⟩,
           ⟨"z", "z.mp4", "normal", none, 2, "Z", false⟩,
           ⟨"w", "w.mp4", "breaking", none, 9, "W", false⟩]))
        (Playlist.mk
          [⟨"x", "x.mp4", "normal", none, 0, "X", false⟩,
           ⟨"y", "y.mp4", "normal", none, 1, "Y", false⟩,
           ⟨"z", "z.mp4", "normal", none, 2, "Z", false⟩]) 0
      = [⟨"x", "x.mp4", "normal", none, 0, "X", false⟩,
         ⟨"y", "y.mp4", "normal", none, 1, "Y", false⟩,
         ⟨"z", "z.mp4", "normal", none, 2, "Z", false⟩][0]? :=
  c3_breaking_preempts
    [⟨"x", "x.mp4", "normal", none, 0, "X", false⟩,
     ⟨"y", "y.mp4", "normal", none, 1, "Y", false⟩,
     ⟨"z", "z.mp4", "normal", none, 2, "Z", false⟩]
    (Playlist.mk
      [⟨"x", "x.mp4", "normal", none, 0, "X", false⟩,
       ⟨"y", "y.mp4", "normal", none, 1, "Y", false⟩,
       ⟨"z", "z.mp4", "normal", none, 2, "Z", false⟩,
       ⟨"w", "w.mp4", "breaking", none, 9, "W", false⟩])
    (Playlist.mk
      [⟨"x", "x.mp4", "normal", none, 0, "X", false⟩,
       ⟨"y", "y.mp4", "normal", none, 1, "Y", false⟩,
       ⟨"z", "z.mp4", "normal", none, 2, "Z", false⟩]) 1
    ⟨"w", "w.mp4", "breaking", none, 9, "W", false⟩
    (by decide) (by decide) rfl rfl (by decide)

/-- Claim C4: pending breaking clips stay eligible step after step — the
consumed mark lives on the freshly reloaded copy that is discarded before
the next step, so while the store still holds a breaking clip (fresh loads
carry no consumed mark), two consecutive steps with index `> 0` that reload
the same store content both deliver the same pending breaking clip. -/
theorem c4_breaking_reselectable (ordered : List Clip) (pl plBase : Playlist)
    (i : Nat) (b : Clip) (hi : 0 < i)
    (hb : b ∈ pl.clips) (hbp : b.priority = "breaking")
    (hfresh : ∀ c ∈ pl.clips, c._played = false) :
    ∃ w, stepSelect ordered (some pl) plBase i = some w
      ∧ stepSelect ordered (some pl) plBase (i + 1) = some w
      ∧ w.priority = "breaking" ∧ w._played = false ∧ w ∈ pl.clips := by
  have hbO : b ∈ (getOrderedClips (some pl)).filter
      (fun c => c.priority == "breaking" && !c._played) := by
    refine List.mem_filter.2 ⟨?_, by simp [hbp, hfresh b hb]⟩
    rw [getOrderedClips_eq_tiers]
    simp only [List.mem_append, List.mem_insertionSort, List.mem_filter]
    exact Or.inl (Or.inl (Or.inr ⟨hb, by simp [hbp]⟩))
  cases hF : (getOrderedClips (some pl)).filter
      (fun c => c.priority == "breaking" && !c._played) with
  | nil => rw [hF] at hbO; cases hbO
  | cons w t =>
    have hwF : w ∈ (getOrderedClips (some pl)).filter
        (fun c => c.priority == "breaking" && !c._played) := by
      rw [hF]; exact List.mem_cons_self w t
    have hws := List.mem_filter.1 hwF
    have hwp : w.priority = "breaking" := by
      have := hws.2
      simp only [Bool.and_eq_true, beq_iff_eq] at this
      exact this.1
    have hwu : w._played = false := by
      have := hws.2
      simp only [Bool.and_eq_true, Bool.not_eq_true'] at this
      exact this.2
    refine ⟨w, ?_, ?_, hwp, hwu, mem_clips_of_mem_getOrderedClips hws.1⟩
    · show (if 0 < ((getOrderedClips (some pl)).filter
          (fun c => c.priority == "breaking" && !c._played)).length ∧ 0 < i
        then ((getOrderedClips (some pl)).filter
          (fun c => c.priority == "breaking" && !c._played)).head?
        else ordered[i]?) = some w
      rw [hF]
      simp [hi]
    · show (if 0 < ((getOrderedClips (some pl)).filter
          (fun c => c.priority == "breaking" && !c._played)).length ∧ 0 < i + 1
        then ((getOrderedClips (some pl)).filter
          (fun c => c.priority == "breaking" && !c._played)).head?
        else ordered[i + 1]?) = some w
      rw [hF]
      simp

/-- Claim C4 witness: with the breaking clip `w` still in the store, steps
1 and 2 of the pass both deliver `w`. -/
theorem c4_witness :
    ∃ w, stepSelect
        [⟨"x", "x.mp4", "normal", none, 0, "X", false⟩]
        (some (Playlist.mk
          [⟨"x", "x.mp4", "normal", none, 0, "X", false⟩,
           ⟨"w", "w.mp4", "breaking", none, 9, "W", false⟩]))
        (Playlist.mk [⟨"x", "x.mp4", "normal", none, 0, "X", false⟩]) 1
      = some w
      ∧ stepSelect
        [⟨"x", "x.mp4", "normal", none, 0, "X", false⟩]
        (some (Playlist.mk
          [⟨"x", "x.mp4", "normal", none, 0, "X", false⟩,
           ⟨"w", "w.mp4", "breaking", none, 9, "W", false⟩]))
        (Playlist.mk [⟨"x", "x.mp4", "normal", none, 0, "X", false⟩]) 2
      = some w
      ∧ w.priority = "breaking" ∧ w._played = false
      ∧ w ∈ (Playlist.mk
          [⟨"x", "x.mp4", "normal", none, 0, "X", false⟩,
           ⟨"w", "w.mp4", "breaking", none, 9, "W", false⟩]).clips :=
  c4_breaking_reselectable
    [⟨"x", "x.mp4", "normal", none, 0, "X", false⟩]
    (Playlist.mk
      [⟨"x", "x.mp4", "normal", none, 0, "X", false⟩,
       ⟨"w", "w.mp4", "breaking", none, 9, "W", false⟩])
    (Playlist.mk [⟨"x", "x.mp4", "normal", none, 0, "X", false⟩]) 1
    ⟨"w", "w.mp4", "breaking", none, 9, "W", false⟩
    (by decide) (by decide) rfl (by decide)
